import Mathlib

/-!
Shallow embedding of `proc-ws-server.py`, a single-file WebSocket telemetry
server, together with theorems settling the frozen specification claims.

Byte streams are modelled as `List Nat` (each element one byte), machine
integers as `Nat`/`Int` with explicit `% 2 ^ w` where the source wraps,
timestamps as `ℚ` (the source uses floating-point seconds only through
subtraction and division), and fallible operations as `Option`/`Except`.
-/

set_option maxRecDepth 8000

namespace ProcWs

/-! ### Frame codec (WebSocketsHandler.read_next_message / send_message)

`read_next_message` reads two bytes, takes the low 7 bits of the second byte
as a length code (126 and 127 select 2- and 8-byte big-endian extended
lengths), reads 4 mask bytes, then XOR-unmasks `length` payload bytes with
`masks[i mod 4]`.  `send_message` emits `chr(129)`, the three-tier length
encoding, then the raw payload with no mask.  A read that would block forever
because the peer closed mid-frame is modelled as `none`. -/

/-- Two big-endian bytes of a length, the embedding of packing a big-endian
unsigned 16-bit integer; exact for `n ≤ 65535`, where the source uses it. -/
def be2 (n : Nat) : List Nat := [n / 256 % 256, n % 256]

/-- Eight big-endian bytes of a length, the embedding of packing a big-endian
unsigned 64-bit integer; exact for `n < 2 ^ 64`, where the source uses it
(the source library raises an error beyond that, so theorems carry that
bound as a hypothesis). -/
def be8 (n : Nat) : List Nat :=
  [n / 256 ^ 7 % 256, n / 256 ^ 6 % 256, n / 256 ^ 5 % 256, n / 256 ^ 4 % 256,
   n / 256 ^ 3 % 256, n / 256 ^ 2 % 256, n / 256 % 256, n % 256]

/-- Big-endian value of a byte list, the embedding of unpacking a big-endian
unsigned integer. -/
def beVal (bs : List Nat) : Nat := bs.foldl (fun a b => a * 256 + b) 0

/-- The mask byte used at payload position `i`: `masks[i mod 4]`. -/
def maskAt (m0 m1 m2 m3 i : Nat) : Nat :=
  match i % 4 with
  | 0 => m0
  | 1 => m1
  | 2 => m2
  | _ => m3

/-- XOR every byte of a list with the mask byte of its (absolute) position,
starting at position `i`; this is both the client-side masking operation and
the decoder's unmasking loop (`chr(ord(char) ^ masks[len(decoded) % 4])`). -/
def xorMask (m0 m1 m2 m3 : Nat) : Nat → List Nat → List Nat
  | _, [] => []
  | i, c :: cs => (c ^^^ maskAt m0 m1 m2 m3 i) :: xorMask m0 m1 m2 m3 (i + 1) cs

/-- After the length is known: read exactly 4 mask bytes, then `len` payload
bytes, and unmask them.  `none` models a stream that ends mid-frame. -/
def readPayload (len : Nat) (s : List Nat) : Option (List Nat) :=
  match s with
  | m0 :: m1 :: m2 :: m3 :: r =>
    if len ≤ r.length then some (xorMask m0 m1 m2 m3 0 (r.take len)) else none
  | _ => none

/-- Embedding of `WebSocketsHandler.read_next_message`: the first byte is read
but never inspected; the second byte's low 7 bits select the length tier. -/
def read_next_message (s : List Nat) : Option (List Nat) :=
  match s with
  | _ :: b1 :: rest =>
    let len := b1 &&& 127
    if len = 126 then
      match rest with
      | l0 :: l1 :: r2 => readPayload (l0 * 256 + l1) r2
      | _ => none
    else if len = 127 then
      match rest with
      | l0 :: l1 :: l2 :: l3 :: l4 :: l5 :: l6 :: l7 :: r2 =>
        readPayload (beVal [l0, l1, l2, l3, l4, l5, l6, l7]) r2
      | _ => none
    else readPayload len rest
  | _ => none

/-- The three-tier length encoding of `WebSocketsHandler.send_message`:
the literal length byte for `n ≤ 125`, byte 126 plus two big-endian bytes
for `126 ≤ n ≤ 65535`, byte 127 plus eight big-endian bytes otherwise. -/
def lenEncode (n : Nat) : List Nat :=
  if n ≤ 125 then [n]
  else if 126 ≤ n ∧ n ≤ 65535 then 126 :: be2 n
  else 127 :: be8 n

/-- Embedding of `WebSocketsHandler.send_message`: `chr(129)`, the length
encoding, then the raw payload (no masking bytes). -/
def send_message (message : List Nat) : List Nat :=
  129 :: (lenEncode message.length ++ message)

/-- A client-side masked frame built exactly as the round-trip claim
describes: one control byte, the three-tier length encoding of the payload
length (`send_message`'s own encoding), the four mask bytes, then the payload
XOR-masked with `mask[position mod 4]`. -/
def clientFrame (ctrl m0 m1 m2 m3 : Nat) (payload : List Nat) : List Nat :=
  ctrl :: (lenEncode payload.length ++ ([m0, m1, m2, m3] ++ xorMask m0 m1 m2 m3 0 payload))

/-! ### Python string and number primitives used by the parser -/

/-- Python exceptions raised by the modelled code paths. -/
inductive PyErr where
  | valueError (msg : String)
  | indexError
  | keyError (key : String)
  deriving DecidableEq

/-- The whitespace characters of Python `str.strip()` / `str.split()`. -/
def isPySpace (c : Char) : Bool :=
  c == ' ' || c == '\t' || c == '\n' || c == '\r' || c == '\x0b' || c == '\x0c'

/-- Python `str.strip()` with no argument: remove leading and trailing
whitespace. -/
def pyStrip (s : String) : String :=
  (((s.toList.dropWhile fun c => isPySpace c).reverse.dropWhile
      fun c => isPySpace c).reverse).asString

/-- Python `str.lower()` on the ASCII text handled here. -/
def pyLower (s : String) : String := (s.toList.map Char.toLower).asString

/-- Python slice `s[a:b]` on the character list of a line, `none` standing
for an omitted stop bound; out-of-range bounds are clamped as in Python. -/
def pySlice (cs : List Char) (a : Nat) (b : Option Nat) : List Char :=
  match b with
  | none => cs.drop a
  | some e => (cs.take e).drop a

/-- Python `str.split()` with no separator: the maximal whitespace-free
runs, in order. -/
def pySplitWS (cs : List Char) : List String :=
  ((cs.foldr
      (fun c acc =>
        if isPySpace c then [] :: acc
        else
          match acc with
          | [] => [[c]]
          | t :: ts => (c :: t) :: ts)
      []).filter fun t => !t.isEmpty).map fun t => t.asString

/-- Number of occurrences of a character, as in Python `str.count` for a
single-character argument. -/
def pyCount (s : String) (c : Char) : Nat := (s.toList.filter fun x => x == c).length

/-- Helper for `pyFind`, walking the character list with its index. -/
def pyFindAux (c : Char) (start : Nat) : List Char → Nat → Option Nat
  | [], _ => none
  | x :: xs, i => if start ≤ i ∧ x = c then some i else pyFindAux c start xs (i + 1)

/-- Python `s.find(c, start)` restricted to the non-negative result: the
index of the first occurrence of `c` at or after `start`, `none` when the
source would return `-1`. -/
def pyFind (cs : List Char) (c : Char) (start : Nat) : Option Nat :=
  pyFindAux c start cs 0

/-- Helper for `splitColonOnce`: text before and after the first colon. -/
def splitColonAux : List Char → Option (List Char × List Char)
  | [] => none
  | c :: cs =>
    if c = ':' then some ([], cs)
    else
      match splitColonAux cs with
      | none => none
      | some p => some (c :: p.1, p.2)

/-- Python `s.split(":", 1)` unpacked into exactly two values; `none` when
the separator is absent, in which case the tuple unpacking on line 122
raises `ValueError`. -/
def splitColonOnce (s : String) : Option (String × String) :=
  (splitColonAux s.toList).map fun p => (p.1.asString, p.2.asString)

/-- Value of a nonempty digit string. -/
def digitsVal (ds : List Char) : Nat := ds.foldl (fun a c => a * 10 + (c.toNat - 48)) 0

/-- Python `int(token)` on a whitespace-free token: an optional sign and at
least one digit; anything else raises `ValueError`, modelled as `none`. -/
def pyInt (s : String) : Option Int :=
  match s.toList with
  | [] => none
  | '-' :: ds =>
    if ds ≠ [] ∧ ds.all Char.isDigit then some (-(digitsVal ds : Int)) else none
  | '+' :: ds =>
    if ds ≠ [] ∧ ds.all Char.isDigit then some (digitsVal ds : Int) else none
  | ds => if ds.all Char.isDigit then some (digitsVal ds : Int) else none

/-! ### ProcNetDev.update: the counter-table parser

The file contents are modelled as the list of their lines, without trailing
newlines: `readline`'s terminator is either stripped explicitly by the
source (label line, data rows) or removed by the `strip()` inside the
section-name computation, so it never influences a result. -/

/-- Association-list model of a Python dict under assignment: overwrite an
existing key in place, append a new key at the end. -/
def dictInsert {β : Type} (d : List (String × β)) (k : String) (v : β) :
    List (String × β) :=
  match d with
  | [] => [(k, v)]
  | p :: rest => if p.1 = k then (k, v) :: rest else p :: dictInsert rest k v

/-- Field name to counter value, one section of one interface. -/
abbrev FieldMap := List (String × Int)

/-- Section name (receive/transmit) to its field map. -/
abbrev GroupMap := List (String × FieldMap)

/-- Interface name to its group map: the structure `update` builds. -/
abbrev Interfaces := List (String × GroupMap)

instance instDecEqGroupMap : DecidableEq GroupMap := inferInstance

instance instDecEqInterfaces : DecidableEq Interfaces := inferInstance

/-- The pipe-scanning loop of lines 95-105: starting from `position = -1`,
set `last_position := position + 1`, find the next pipe, append
`(last_position, position, slice.strip().lower())`, and loop while
`position` is truthy — so the loop also stops if a pipe is found at index
`0`, since `0` is falsy in Python.  `fuel` bounds the recursion;
`length + 1` always suffices because `last_position` strictly increases. -/
def sectionsLoop (cs : List Char) : Nat → Nat → List (Nat × Option Nat × String)
  | 0, _ => []
  | fuel + 1, last =>
    match pyFind cs '|' last with
    | none => [(last, none, pyLower (pyStrip (pySlice cs last none).asString))]
    | some p =>
      (last, some p, pyLower (pyStrip (pySlice cs last (some p)).asString)) ::
        (if p = 0 then [] else sectionsLoop cs fuel (p + 1))

/-- All recorded header sections of a header line. -/
def scanSections (cs : List Char) : List (Nat × Option Nat × String) :=
  sectionsLoop cs (cs.length + 1) 0

/-- The inner label loop of lines 137-141: associate each label of one
section with `int(data[absolute_position])` and advance the position.  The
subscript is evaluated before the conversion, so a missing position raises
`IndexError` and a non-numeric token `ValueError`. -/
def assignSection (tmp : FieldMap) (secLabels : List String) (data : List String)
    (absPos : Nat) : Except PyErr (FieldMap × Nat) :=
  match secLabels with
  | [] => .ok (tmp, absPos)
  | l :: ls =>
    match data[absPos]? with
    | none => .error .indexError
    | some tok =>
      match pyInt tok with
      | none => .error (.valueError "invalid literal for int()")
      | some v => assignSection (dictInsert tmp l v) ls data (absPos + 1)

/-- The outer section loop of lines 132-145, over the parallel section-name
and label lists, threading the flattened absolute position. -/
def assignGroups (acc : GroupMap) (pairs : List (String × List String))
    (data : List String) (absPos : Nat) : Except PyErr GroupMap :=
  match pairs with
  | [] => .ok acc
  | sp :: rest =>
    match assignSection [] sp.2 data absPos with
    | .error e => .error e
    | .ok t => assignGroups (dictInsert acc sp.1 t.1) rest data t.2

/-- One data row, lines 118-145: split on the first colon into entity name
and counter text, strip the name, whitespace-split the counters, and assign
them to the (group, field) pairs in flattened order. -/
def parseRow (pairs : List (String × List String)) (row : String) :
    Except PyErr (String × GroupMap) :=
  match splitColonOnce row with
  | none => .error (.valueError "need more than 1 value to unpack")
  | some nd =>
    match assignGroups [] pairs (pySplitWS nd.2.toList) 0 with
    | .error e => .error e
    | .ok groups => .ok (pyStrip nd.1, groups)

/-- The row loop over `readlines()`: the first raised exception aborts the
whole parse. -/
def parseRows (acc : Interfaces) (pairs : List (String × List String)) :
    List String → Except PyErr Interfaces
  | [] => .ok acc
  | r :: rs =>
    match parseRow pairs r with
    | .error e => .error e
    | .ok ng => parseRows (dictInsert acc ng.1 ng.2) pairs rs

/-- Embedding of `ProcNetDev.update`, lines 83-149: reject a header without
a pipe, scan its sections and discard the first (junk) one, slice the label
line by the recorded section spans, then parse every data row. -/
def procNetDevParse (lines : List String) : Except PyErr Interfaces :=
  let headerline := lines.headD ""
  if pyCount headerline '|' = 0 then
    .error (.valueError "Header was not in the expected format")
  else
    let sections := (scanSections headerline.toList).drop 1
    let labelline := (lines.drop 1).headD ""
    let pairs := sections.map fun s =>
      (s.2.2, pySplitWS (pySlice labelline.toList s.1 s.2.1))
    parseRows [] pairs (lines.drop 2)

/-- The mutable field of a `ProcNetDev` instance that `update` publishes:
`self.data`, `none` before the first successful parse. -/
structure PndState where
  data : Option Interfaces
  deriving DecidableEq

/-- State-level embedding of a call to `ProcNetDev.update`: on success the
freshly built dict replaces `self.data` wholesale; when parsing raises, the
exception propagates before the assignment on line 148 runs, so `self.data`
is left untouched. -/
def pndUpdate (st : PndState) (lines : List String) : PndState × Option PyErr :=
  match procNetDevParse lines with
  | .ok d => (⟨some d⟩, none)
  | .error e => (st, some e)

/-- A two-interface sample table in the source's table format: pipe-aligned
header and label lines, then one colon-separated data row per interface,
with zero, small and multi-digit counter values. -/
def sampleTable : List String :=
  ["Inter-|   Receive                |  Transmit",
   " face |bytes    packets errs     |bytes    packets errs",
   "    lo:   98765      43    0    98765     43      0",
   "  eth0: 1234567     890    2     4321      7      0"]

/-- The first two (header and label) lines of `sampleTable`, reused with
arbitrary data rows. -/
def sampleHeaderLines : List String := sampleTable.take 2

/-- The nested mapping `sampleTable` must parse to. -/
def sampleParsed : Interfaces :=
  [("lo", [("receive", [("bytes", 98765), ("packets", 43), ("errs", 0)]),
           ("transmit", [("bytes", 98765), ("packets", 43), ("errs", 0)])]),
   ("eth0", [("receive", [("bytes", 1234567), ("packets", 890), ("errs", 2)]),
             ("transmit", [("bytes", 4321), ("packets", 7), ("errs", 0)])])]

/-- The (section, labels) pairs computed from `sampleHeaderLines`. -/
def samplePairs : List (String × List String) :=
  [("receive", ["bytes", "packets", "errs"]),
   ("transmit", ["bytes", "packets", "errs"])]

/-- Total number of fields in the flattened header field list. -/
def totalLabels (pairs : List (String × List String)) : Nat :=
  (pairs.map fun p => p.2.length).sum

/-! ### SHA-1, hex and base64 (the externally provided primitives the
handshake calls), and the accept-token computation -/

/-- ASCII byte list of a string. -/
def strBytes (s : String) : List Nat := s.toList.map Char.toNat

/-- The fixed protocol magic string, `WebSocketsHandler.magic`. -/
def magic : String := "258EAFA5-E914-47DA-95CA-C5AB0DC85B11"

/-- 32-bit left rotation by `k` (for `0 < k < 32`) of a word below
`2 ^ 32`. -/
def rotl (k n : Nat) : Nat := (n * 2 ^ k + n / 2 ^ (32 - k)) % 2 ^ 32

/-- The SHA-1 round function for round `t`. -/
def sha1F (t b c d : Nat) : Nat :=
  if t < 20 then (b &&& c) ||| ((b ^^^ 4294967295) &&& d)
  else if t < 40 then b ^^^ c ^^^ d
  else if t < 60 then (b &&& c) ||| (b &&& d) ||| (c &&& d)
  else b ^^^ c ^^^ d

/-- The SHA-1 round constant for round `t`. -/
def sha1K (t : Nat) : Nat :=
  if t < 20 then 1518500249
  else if t < 40 then 1859775393
  else if t < 60 then 2400959708
  else 3395469782

/-- SHA-1 padding: a `0x80` byte, zeros up to 56 mod 64, then the bit length
as eight big-endian bytes. -/
def sha1Pad (msg : List Nat) : List Nat :=
  msg ++ 128 :: (List.replicate ((119 - msg.length % 64) % 64) 0 ++ be8 (msg.length * 8))

/-- 64-byte chunks of the padded message (fuel-bounded; the padded length is
always a positive multiple of 64, so `fuel = length` suffices). -/
def chunks64 : Nat → List Nat → List (List Nat)
  | 0, _ => []
  | _, [] => []
  | fuel + 1, l => l.take 64 :: chunks64 fuel (l.drop 64)

/-- Big-endian 32-bit words of one 64-byte chunk. -/
def beWords : List Nat → List Nat
  | a :: b :: c :: d :: rest => (((a * 256 + b) * 256 + c) * 256 + d) :: beWords rest
  | _ => []

/-- Message-schedule extension by `count` words; the schedule is carried
reversed, so `w[n-3]` is at index 2, `w[n-8]` at 7, `w[n-14]` at 13 and
`w[n-16]` at 15. -/
def sha1Extend (rev : List Nat) : Nat → List Nat
  | 0 => rev.reverse
  | count + 1 =>
    sha1Extend (rotl 1 (rev.getD 2 0 ^^^ rev.getD 7 0 ^^^ rev.getD 13 0 ^^^ rev.getD 15 0)
      :: rev) count

/-- The 80 SHA-1 compression rounds over the schedule words. -/
def sha1Rounds : List Nat → Nat → Nat × Nat × Nat × Nat × Nat → Nat × Nat × Nat × Nat × Nat
  | [], _, st => st
  | wt :: ws, t, (a, b, c, d, e) =>
    sha1Rounds ws (t + 1)
      ((rotl 5 a + sha1F t b c d + e + wt + sha1K t) % 2 ^ 32, a, rotl 30 b, c, d)

/-- One chunk's contribution to the running hash state. -/
def sha1Chunk (h : Nat × Nat × Nat × Nat × Nat) (chunk : List Nat) :
    Nat × Nat × Nat × Nat × Nat :=
  match h, sha1Rounds (sha1Extend (beWords chunk).reverse 64) 0 h with
  | (h0, h1, h2, h3, h4), (a, b, c, d, e) =>
    ((h0 + a) % 2 ^ 32, (h1 + b) % 2 ^ 32, (h2 + c) % 2 ^ 32,
     (h3 + d) % 2 ^ 32, (h4 + e) % 2 ^ 32)

/-- The final SHA-1 hash state of a byte message. -/
def sha1Digest (msg : List Nat) : Nat × Nat × Nat × Nat × Nat :=
  (chunks64 (sha1Pad msg).length (sha1Pad msg)).foldl sha1Chunk
    (1732584193, 4023233417, 2562383102, 271733878, 3285377520)

/-- Four big-endian bytes of a 32-bit word. -/
def be4 (n : Nat) : List Nat := [n / 2 ^ 24 % 256, n / 2 ^ 16 % 256, n / 256 % 256, n % 256]

/-- The raw 20-byte SHA-1 digest of a byte message. -/
def sha1Bytes (msg : List Nat) : List Nat :=
  be4 (sha1Digest msg).1 ++ be4 (sha1Digest msg).2.1 ++ be4 (sha1Digest msg).2.2.1 ++
    be4 (sha1Digest msg).2.2.2.1 ++ be4 (sha1Digest msg).2.2.2.2

/-- The sixteen lowercase hex characters. -/
def hexChars : List Char := "0123456789abcdef".toList

/-- Python `hexdigest()` character data: two lowercase hex characters per
digest byte. -/
def hexEncode (bs : List Nat) : List Char :=
  bs.foldr (fun b acc => hexChars.getD (b / 16) '0' :: hexChars.getD (b % 16) '0' :: acc) []

/-- Value of one hex character, upper or lower case. -/
def hexVal (c : Char) : Nat :=
  if c.isDigit then c.toNat - 48
  else if 'a' ≤ c ∧ c ≤ 'f' then c.toNat - 87
  else if 'A' ≤ c ∧ c ≤ 'F' then c.toNat - 55
  else 0

/-- Python `.decode('hex')`: consecutive hex-character pairs back to
bytes. -/
def hexDecode : List Char → List Nat
  | a :: b :: rest => (hexVal a * 16 + hexVal b) :: hexDecode rest
  | _ => []

/-- The base64 alphabet. -/
def b64Chars : List Char :=
  "ABCDEFGHIJKLMNOPQRSTUVWXYZabcdefghijklmnopqrstuvwxyz0123456789+/".toList

/-- The base64 character of a 6-bit value. -/
def b64Char (n : Nat) : Char := b64Chars.getD n 'A'

/-- Python `b64encode` on a byte list, including the `=` padding. -/
def b64encode : List Nat → List Char
  | [] => []
  | [a] => [b64Char (a / 4), b64Char (a % 4 * 16), '=', '=']
  | [a, b] => [b64Char (a / 4), b64Char (a % 4 * 16 + b / 16), b64Char (b % 16 * 4), '=']
  | a :: b :: c :: rest =>
    b64Char (a / 4) :: b64Char (a % 4 * 16 + b / 16) ::
      b64Char (b % 16 * 4 + c / 64) :: b64Char (c % 64) :: b64encode rest

/-- Embedding of lines 204-205: the accept token is
`b64encode(sha1(key + magic).hexdigest().decode('hex'))` — the hex digest
text decoded back to the raw digest bytes, then base64-encoded. -/
def acceptToken (key : String) : String :=
  (b64encode (hexDecode (hexEncode (sha1Bytes (strBytes (key ++ magic)))))).asString

/-! ### Handshake and handle loop (WebSocketsHandler.handshake / handle) -/

/-- An incoming handshake request reduced to the header fields the source
reads: the `Upgrade` header (if present) and the `Sec-WebSocket-Key`. -/
structure HsRequest where
  upgrade : Option String
  key : String

/-- The 101 Switching Protocols response block built on lines 206-209. -/
def handshakeResponse (key : String) : String :=
  "HTTP/1.1 101 Switching Protocols\r\nUpgrade: websocket\r\nConnection: Upgrade\r\nSec-WebSocket-Accept: "
    ++ acceptToken key ++ "\r\n\r\n"

/-- Embedding of one call to `WebSocketsHandler.handshake`: if the `Upgrade`
header is absent or differs from "websocket" the method just returns —
nothing is sent and `handshake_done` stays false; otherwise the accept
response is sent and `handshake_done` becomes truthy. -/
def handshakeStep (r : HsRequest) : Bool × Option String :=
  if r.upgrade ≠ some "websocket" then (false, none)
  else (true, some (handshakeResponse r.key))

/-- Embedding of the `while True` loop of `WebSocketsHandler.handle` over
successive incoming requests: while `handshake_done` is false each iteration
calls `handshake` on the next request; once it is true the loop switches to
`read_next_message` and consumes no further handshake requests (the session
is streaming).  Returns the final `handshake_done` flag and every response
sent. -/
def handleRun (done : Bool) : List HsRequest → Bool × List String
  | [] => (done, [])
  | r :: rs =>
    if done then (done, [])
    else
      let s := handshakeStep r
      let t := handleRun s.1 rs
      (t.1, s.2.toList ++ t.2)

/-! ### Rate computation and the tick loop (WebSocketsHandler.update)

Timestamps are rationals: `time.time()` values pass only through
subtraction and division.  Rational division is total where Python would
raise `ZeroDivisionError` on a zero elapsed time, so theorems about rates
carry a nonzero-elapsed-time hypothesis. -/

/-- The bandwidth baseline kept in the class attributes `tx`, `rx`, `ts` of
`WebSocketsHandler`; all three start at `0` (lines 155-157). -/
structure BwState where
  tx : Int
  rx : Int
  ts : ℚ
  deriving DecidableEq

/-- The initial class-scope baseline. -/
def bwStart : BwState := ⟨0, 0, 0⟩

/-- The bandwidth block of one tick's JSON message: the absolute counters
and the two computed rates, always numeric. -/
structure BwMsg where
  transmit : Int
  receive : Int
  txRate : ℚ
  rxRate : ℚ
  deriving DecidableEq

/-- Embedding of the rate computation of lines 235-250: unconditionally
compute `(new - previous) / (now - previous time)` for both directions,
then overwrite the baseline with the new readings. -/
def wsUpdate (st : BwState) (tx rx : Int) (ts : ℚ) : BwState × BwMsg :=
  let diff_tx : Int := tx - st.tx
  let diff_rx : Int := rx - st.rx
  let diff_ts : ℚ := ts - st.ts
  (⟨tx, rx, ts⟩, ⟨tx, rx, (diff_tx : ℚ) / diff_ts, (diff_rx : ℚ) / diff_ts⟩)

/-- One tick's snapshot read: the tracked interface's two byte counters and
the clock, or the exception the read raised (for instance `ValueError` out
of `ProcNetDev.update`). -/
abbrev TickRead := Except PyErr (Int × Int × ℚ)

/-- Embedding of the scheduler behaviour of `WebSocketsHandler.update`: the
tick body reads the snapshot, sends the message, and only then re-arms the
next tick — `sc.enter(0.5, 1, self.update, (sc,))` is the final statement of
the method — so an exception raised by the read aborts the tick before the
re-arm and the scheduler queue runs empty: no later tick ever runs, and the
remaining reads are never consumed. -/
def runTicks (st : BwState) : List TickRead → BwState × List BwMsg
  | [] => (st, [])
  | .error _ :: _ => (st, [])
  | .ok r :: rest =>
    let p := wsUpdate st r.1 r.2.1 r.2.2
    let q := runTicks p.1 rest
    (q.1, p.2 :: q.2)

theorem xorMask_length (m0 m1 m2 m3 : Nat) : ∀ (i : Nat) (l : List Nat),
    (xorMask m0 m1 m2 m3 i l).length = l.length := by
  intro i l
  induction l generalizing i with
  | nil => rfl
  | cons c cs ih => simp [xorMask, ih]

theorem xorMask_involutive (m0 m1 m2 m3 : Nat) : ∀ (i : Nat) (l : List Nat),
    xorMask m0 m1 m2 m3 i (xorMask m0 m1 m2 m3 i l) = l := by
  intro i l
  induction l generalizing i with
  | nil => rfl
  | cons c cs ih => simp [xorMask, ih, Nat.xor_cancel_right]

theorem readPayload_exact (m0 m1 m2 m3 : Nat) (payload : List Nat) :
    readPayload payload.length (m0 :: m1 :: m2 :: m3 :: xorMask m0 m1 m2 m3 0 payload) =
      some payload := by
  simp [readPayload, xorMask_length, List.take_of_length_le, xorMask_involutive]

theorem beVal_be8 (n : Nat) (h : n < 2 ^ 64) : beVal (be8 n) = n := by
  simp only [beVal, be8, List.foldl]
  omega

theorem lenEncode_small (n : Nat) (h : n ≤ 125) : lenEncode n = [n] := by
  simp [lenEncode, h]

theorem lenEncode_mid (n : Nat) (h1 : 126 ≤ n) (h2 : n ≤ 65535) :
    lenEncode n = 126 :: be2 n := by
  rw [lenEncode, if_neg (by omega), if_pos (And.intro h1 h2)]

theorem lenEncode_large (n : Nat) (h : 65536 ≤ n) : lenEncode n = 127 :: be8 n := by
  rw [lenEncode, if_neg (by omega), if_neg (by omega)]

/-- C1: frame codec round-trip.  For every payload byte list (hence every
length tier), every control byte and every 4-byte mask, decoding the frame
[control byte, three-tier length encoding, 4 mask bytes, XOR-masked payload]
recovers exactly the original payload.  The bound `payload.length < 2 ^ 64`
reflects the 8-byte length field (beyond it the source's pack call errors). -/
theorem frame_roundtrip (ctrl m0 m1 m2 m3 : Nat) (payload : List Nat)
    (h : payload.length < 2 ^ 64) :
    read_next_message (clientFrame ctrl m0 m1 m2 m3 payload) = some payload := by
  have hx := readPayload_exact m0 m1 m2 m3 payload
  by_cases h1 : payload.length ≤ 125
  · have hframe : clientFrame ctrl m0 m1 m2 m3 payload =
        ctrl :: payload.length ::
          (m0 :: m1 :: m2 :: m3 :: xorMask m0 m1 m2 m3 0 payload) := by
      simp [clientFrame, lenEncode_small payload.length h1]
    have hand : payload.length &&& 127 = payload.length := by
      have h7 := Nat.and_pow_two_sub_one_eq_mod payload.length 7
      norm_num at h7
      rw [h7, Nat.mod_eq_of_lt (by omega)]
    rw [hframe]
    simp only [read_next_message, hand]
    rw [if_neg (by omega), if_neg (by omega)]
    exact hx
  · by_cases h2 : payload.length ≤ 65535
    · have hframe : clientFrame ctrl m0 m1 m2 m3 payload =
          ctrl :: 126 :: payload.length / 256 % 256 :: payload.length % 256 ::
            (m0 :: m1 :: m2 :: m3 :: xorMask m0 m1 m2 m3 0 payload) := by
        simp [clientFrame, lenEncode_mid payload.length (by omega) h2, be2]
      rw [hframe]
      simp only [read_next_message]
      rw [if_pos (by decide)]
      have hval : payload.length / 256 % 256 * 256 + payload.length % 256 =
          payload.length := by omega
      rw [hval]
      exact hx
    · have hframe : clientFrame ctrl m0 m1 m2 m3 payload =
          ctrl :: 127 :: payload.length / 256 ^ 7 % 256 :: payload.length / 256 ^ 6 % 256 ::
            payload.length / 256 ^ 5 % 256 :: payload.length / 256 ^ 4 % 256 ::
            payload.length / 256 ^ 3 % 256 :: payload.length / 256 ^ 2 % 256 ::
            payload.length / 256 % 256 :: payload.length % 256 ::
            (m0 :: m1 :: m2 :: m3 :: xorMask m0 m1 m2 m3 0 payload) := by
        simp [clientFrame, lenEncode_large payload.length (by omega), be8]
      rw [hframe]
      simp only [read_next_message]
      rw [if_neg (by decide), if_pos (by decide)]
      have hval : beVal (be8 payload.length) = payload.length := beVal_be8 payload.length h
      simp only [be8] at hval
      rw [hval]
      exact hx

/-- Witness for C1: decoding a concrete masked frame for payload `[7, 200]`
with control byte 136 and mask `[1, 2, 3, 4]` yields the payload back. -/
theorem frame_roundtrip_witness :
    read_next_message (clientFrame 136 1 2 3 4 [7, 200]) = some [7, 200] :=
  frame_roundtrip 136 1 2 3 4 [7, 200] (by decide)

/-- C8: frame encoding format.  `send_message` emits first byte 129 (0x81,
final text frame), then the literal length byte when the length is at most
125, byte 126 plus the length as two big-endian bytes when it is between 126
and 65535, byte 127 plus the length as eight big-endian bytes otherwise, and
then the raw payload bytes unmasked and untruncated. -/
theorem send_message_format (message : List Nat) :
    (message.length ≤ 125 →
      send_message message = 129 :: message.length :: message) ∧
    (126 ≤ message.length → message.length ≤ 65535 →
      send_message message = 129 :: 126 :: (be2 message.length ++ message)) ∧
    (65536 ≤ message.length →
      send_message message = 129 :: 127 :: (be8 message.length ++ message)) := by
  refine ⟨fun h1 => ?_, fun h2a h2b => ?_, fun h3 => ?_⟩
  · simp [send_message, lenEncode_small message.length h1]
  · simp [send_message, lenEncode_mid message.length h2a h2b]
  · simp [send_message, lenEncode_large message.length h3]

/-- Witness for C8: each tier instantiated concretely — a 3-byte payload gets
the literal length byte, a 126-byte payload the 2-byte extended length, and a
65536-byte payload the 8-byte extended length. -/
theorem send_message_format_witness :
    send_message [5, 6, 7] = 129 :: 3 :: [5, 6, 7] ∧
    send_message (List.replicate 126 9) =
      129 :: 126 :: (be2 126 ++ List.replicate 126 9) ∧
    send_message (List.replicate 65536 9) =
      129 :: 127 :: (be8 65536 ++ List.replicate 65536 9) := by
  refine ⟨?_, ?_, ?_⟩
  · exact (send_message_format [5, 6, 7]).1 (by decide)
  · simpa using (send_message_format (List.replicate 126 9)).2.1 (by simp) (by simp)
  · simpa only [List.length_replicate] using
      (send_message_format (List.replicate 65536 9)).2.2
        (le_of_eq (List.length_replicate 65536 9).symm)

/-- C10: the decoder never inspects the first (control) byte of a frame: two
input streams that differ only in that byte decode to the same result, so
close, ping, binary and continuation opcodes are all treated as data. -/
theorem read_next_message_ignores_first_byte (x y : Nat) (rest : List Nat) :
    read_next_message (x :: rest) = read_next_message (y :: rest) := by
  cases rest with
  | nil => rfl
  | cons b1 r => rfl

/-- C7: counter-table parse result.  Parsing the two-interface sample table
(interfaces `lo` and `eth0`, receive and transmit sections carrying `bytes`,
`packets` and `errs`) discards the junk first header group, slices the label
line by the recorded section spans, assigns each row's integers in flattened
(group, field) order, and yields exactly the expected nested mapping, with
stripped entity names and with zero and multi-digit values intact. -/
theorem sample_table_parses : procNetDevParse sampleTable = .ok sampleParsed := by rfl

/-- C2 counterexample: replaying the spec's own scenario — updates with
counter value 1000 at time 10, then 1500 at time 11 (rate 500), then the
lower value 1000 at time 12 — the third tick reports the negative numeric
rate `-500` instead of "no rate available". -/
theorem rate_guard_counterexample :
    (wsUpdate (wsUpdate (wsUpdate bwStart 1000 1000 10).1 1500 1500 11).1
        1000 1000 12).2.txRate = -500 ∧
    (wsUpdate (wsUpdate bwStart 1000 1000 10).1 1500 1500 11).2.txRate = 500 ∧
    ((-500 : ℚ) < 0) := by
  refine ⟨?_, ?_, by norm_num⟩ <;> norm_num [wsUpdate, bwStart]

/-- C2 amended: when a rate update supplies an absolute counter value
strictly lower than the recorded baseline (at a later timestamp), the code
computes and reports the negative rate `(value - previous) / elapsed`
as-is — there is no counter-decrease guard and no "no rate available"
tick — and the baseline is re-set to the new reading. -/
theorem rate_counter_decrease (st : BwState) (tx rx : Int) (ts : ℚ)
    (hlt : tx < st.tx) (hts : st.ts < ts) :
    (wsUpdate st tx rx ts).2.txRate < 0 ∧ (wsUpdate st tx rx ts).1 = ⟨tx, rx, ts⟩ := by
  constructor
  · show ((tx - st.tx : Int) : ℚ) / (ts - st.ts) < 0
    apply div_neg_of_neg_of_pos
    · exact_mod_cast sub_neg.mpr hlt
    · exact sub_pos.mpr hts
  · rfl

/-- Witness for the amended C2 at a concrete baseline and reading. -/
theorem rate_counter_decrease_witness :
    (wsUpdate ⟨1500, 1500, 11⟩ 1000 900 12).2.txRate < 0 ∧
    (wsUpdate ⟨1500, 1500, 11⟩ 1000 900 12).1 = ⟨1000, 900, 12⟩ :=
  rate_counter_decrease ⟨1500, 1500, 11⟩ 1000 900 12 (by norm_num) (by norm_num)

/-- C3 counterexample: the very first rate update (class-scope baseline
`tx = rx = 0`, `ts = 0`) emits the numeric rates `1000 / 10 = 100` and
`800 / 10 = 80` computed against the zero baseline, not "no rate
available". -/
theorem rate_first_call_counterexample :
    (wsUpdate bwStart 1000 800 10).2.txRate = 100 ∧
    (wsUpdate bwStart 1000 800 10).2.rxRate = 80 := by
  constructor <;> norm_num [wsUpdate, bwStart]

/-- C3 amended: the first rate update computes numeric rates against the
implicit zero baseline (counter 0 at timestamp 0), emitting
`value / timestamp` for both directions, and records the new baseline. -/
theorem rate_first_call (tx rx : Int) (ts : ℚ) (_h : ts ≠ 0) :
    (wsUpdate bwStart tx rx ts).1 = ⟨tx, rx, ts⟩ ∧
    (wsUpdate bwStart tx rx ts).2 = ⟨tx, rx, (tx : ℚ) / ts, (rx : ℚ) / ts⟩ := by
  refine ⟨rfl, ?_⟩
  simp [wsUpdate, bwStart]

/-- Witness for the amended C3 at a concrete first reading. -/
theorem rate_first_call_witness :
    (wsUpdate bwStart 1000 800 10).1 = ⟨1000, 800, 10⟩ ∧
    (wsUpdate bwStart 1000 800 10).2 = ⟨1000, 800, 100, 80⟩ := by
  have h := rate_first_call 1000 800 10 (by norm_num)
  exact ⟨h.1, h.2.trans (by norm_num [BwMsg.mk.injEq])⟩

/-- C4 counterexample: with a snapshot read that raises the header
`ValueError` at tick N and a read that succeeds at tick N + 1, the session
emits no message at all — tick N + 1 never runs — although the same
successful read produces a message when it is the first tick. -/
theorem tick_resilience_counterexample :
    (runTicks bwStart [.error (.valueError "Header was not in the expected format"),
        .ok (100, 100, 1)]).2 = [] ∧
    (runTicks bwStart [.ok (100, 100, 1)]).2.length = 1 := by
  constructor <;> rfl

/-- C4 amended: the next tick is re-armed only at the end of a fully
successful tick body; a tick whose snapshot read raises aborts before the
re-arm, so the scheduler queue empties and no later tick ever runs, whatever
later reads would have returned. -/
theorem tick_failure_stops_ticks (st : BwState) (e : PyErr) (rest : List TickRead) :
    runTicks st (.error e :: rest) = (st, []) := rfl

/-- C5 counterexample: an initial request with no `Upgrade` header does not
close the session — the handler sends nothing for it, loops, retries the
handshake on the next request and then enters the streaming state
(`handshake_done = true`), contradicting "transitions directly to Closed,
never enters Streaming, handshake not retried". -/
theorem handshake_failure_counterexample :
    (handleRun false [⟨none, "k1"⟩,
        ⟨some "websocket", "dGhlIHNhbXBsZSBub25jZQ=="⟩]).1 = true ∧
    (handleRun false [⟨none, "k1"⟩]).2 = [] := by
  constructor <;> rfl

/-- C5 amended: on a request whose upgrade header is absent or mismatched
the handler sends no response and leaves `handshake_done` false, and the
handle loop simply retries the handshake on the subsequent requests; the
session neither closes nor streams on account of the failed attempt. -/
theorem handshake_failure_retries (r : HsRequest) (rs : List HsRequest)
    (h : r.upgrade ≠ some "websocket") :
    handshakeStep r = (false, none) ∧ handleRun false (r :: rs) = handleRun false rs := by
  have hs : handshakeStep r = (false, none) := by simp [handshakeStep, h]
  refine ⟨hs, ?_⟩
  simp [handleRun, hs]

/-- Witness for the amended C5 at a concrete upgrade-less request. -/
theorem handshake_failure_retries_witness :
    handshakeStep ⟨none, "k"⟩ = (false, none) ∧
    handleRun false [⟨none, "k"⟩] = handleRun false [] :=
  handshake_failure_retries ⟨none, "k"⟩ [] (by simp)

theorem hexVal_hexChars (n : Nat) (h : n < 16) : hexVal (hexChars.getD n '0') = n := by
  interval_cases n <;> decide

theorem hexDecode_hexEncode (bs : List Nat) (h : ∀ b ∈ bs, b < 256) :
    hexDecode (hexEncode bs) = bs := by
  induction bs with
  | nil => rfl
  | cons b bs ih =>
    have hb : b < 256 := h b (by simp)
    show hexDecode (hexChars.getD (b / 16) '0' :: hexChars.getD (b % 16) '0' ::
      hexEncode bs) = b :: bs
    simp only [hexDecode]
    rw [hexVal_hexChars (b / 16) (by omega), hexVal_hexChars (b % 16) (by omega),
      ih fun x hx => h x (by simp [hx])]
    congr 1
    omega

theorem be4_lt (n : Nat) : ∀ b ∈ be4 n, b < 256 := by
  intro b hb
  simp only [be4, List.mem_cons, List.not_mem_nil, or_false] at hb
  rcases hb with h | h | h | h <;> omega

theorem sha1Bytes_lt (msg : List Nat) : ∀ b ∈ sha1Bytes msg, b < 256 := by
  intro b hb
  simp only [sha1Bytes, List.mem_append] at hb
  rcases hb with ((((h | h) | h) | h) | h) <;> exact be4_lt _ b h

/-- C6: handshake accept token.  For every nonce, the computed token is the
base64 encoding of the raw SHA-1 digest bytes of the nonce concatenated with
the fixed magic string (the hex digest round-trips through decoding), and on
the RFC 6455 sample nonce it equals the precomputed expected base64
value. -/
theorem acceptToken_correct :
    (∀ key : String,
      acceptToken key = (b64encode (sha1Bytes (strBytes (key ++ magic)))).asString) ∧
    acceptToken "dGhlIHNhbXBsZSBub25jZQ==" = "s3pPLMBiTxaQ9kYGzzhZRbK+xOo=" := by
  constructor
  · intro key
    unfold acceptToken
    rw [hexDecode_hexEncode _ (sha1Bytes_lt _)]
  · rfl

theorem assignSection_pos (ls : List String) (data : List String) :
    ∀ (tmp : FieldMap) (pos : Nat) (t : FieldMap × Nat),
      assignSection tmp ls data pos = .ok t → t.2 = pos + ls.length := by
  induction ls with
  | nil =>
    intro tmp pos t h
    simp only [assignSection] at h
    cases h
    simp
  | cons l ls ih =>
    intro tmp pos t h
    cases hd : data[pos]? with
    | none => simp [assignSection, hd] at h
    | some tok =>
      cases hv : pyInt tok with
      | none => simp [assignSection, hd, hv] at h
      | some v =>
        simp only [assignSection, hd, hv] at h
        have := ih (dictInsert tmp l v) (pos + 1) t h
        simp only [List.length_cons]
        omega

theorem assignSection_short (ls : List String) (data : List String) :
    ∀ (tmp : FieldMap) (pos : Nat), data.length < pos + ls.length → ls ≠ [] →
      ∃ e, assignSection tmp ls data pos = .error e := by
  induction ls with
  | nil => intro tmp pos h hne; exact absurd rfl hne
  | cons l ls ih =>
    intro tmp pos h hne
    cases hd : data[pos]? with
    | none => exact ⟨.indexError, by simp [assignSection, hd]⟩
    | some tok =>
      have hpos : pos < data.length := (List.getElem?_eq_some.mp hd).1
      cases hv : pyInt tok with
      | none => exact ⟨.valueError "invalid literal for int()", by simp [assignSection, hd, hv]⟩
      | some v =>
        cases ls with
        | nil => simp only [List.length_cons, List.length_nil] at h; omega
        | cons l2 ls2 =>
          obtain ⟨e, he⟩ := ih (dictInsert tmp l v) (pos + 1)
            (by simp only [List.length_cons] at h ⊢; omega) (by simp)
          exact ⟨e, by simp only [assignSection, hd, hv]; exact he⟩

theorem totalLabels_cons (sp : String × List String) (rest : List (String × List String)) :
    totalLabels (sp :: rest) = sp.2.length + totalLabels rest := by
  simp [totalLabels]

theorem assignGroups_short (pairs : List (String × List String)) :
    ∀ (acc : GroupMap) (data : List String) (pos : Nat),
      data.length < pos + totalLabels pairs → totalLabels pairs ≠ 0 →
      ∃ e, assignGroups acc pairs data pos = .error e := by
  induction pairs with
  | nil => intro acc data pos h1 h2; exact absurd rfl h2
  | cons sp rest ih =>
    intro acc data pos h1 h2
    rw [totalLabels_cons] at h1 h2
    cases hres : assignSection [] sp.2 data pos with
    | error e => exact ⟨e, by simp [assignGroups, hres]⟩
    | ok t =>
      have ht2 : t.2 = pos + sp.2.length := assignSection_pos sp.2 data [] pos t hres
      have htot : totalLabels rest ≠ 0 := by
        by_cases hsp : sp.2 = []
        · simp only [hsp, List.length_nil, Nat.zero_add] at h2
          exact h2
        · have hge : pos + sp.2.length ≤ data.length := by
            by_contra hc
            push_neg at hc
            obtain ⟨e, he⟩ := assignSection_short sp.2 data [] pos hc hsp
            rw [he] at hres
            cases hres
          omega
      obtain ⟨e, he⟩ := ih (dictInsert acc sp.1 t.1) data t.2 (by omega) htot
      exact ⟨e, by simp only [assignGroups, hres]; exact he⟩

theorem parseRow_short (pairs : List (String × List String)) (row name dataStr : String)
    (hsplit : splitColonOnce row = some (name, dataStr))
    (hlen : (pySplitWS dataStr.toList).length < totalLabels pairs)
    (htot : totalLabels pairs ≠ 0) :
    ∃ e, parseRow pairs row = .error e := by
  obtain ⟨e, he⟩ := assignGroups_short pairs [] (pySplitWS dataStr.toList) 0 (by omega) htot
  exact ⟨e, by simp only [parseRow, hsplit]; rw [he]⟩

theorem parseRows_error (pairs : List (String × List String)) :
    ∀ (rows : List String) (acc : Interfaces) (r : String),
      r ∈ rows → (∃ e, parseRow pairs r = .error e) →
      ∃ e, parseRows acc pairs rows = .error e := by
  intro rows
  induction rows with
  | nil => intro acc r hr _; exact absurd hr (by simp)
  | cons r0 rs ih =>
    intro acc r hr he
    cases hres : parseRow pairs r0 with
    | error e => exact ⟨e, by simp [parseRows, hres]⟩
    | ok ng =>
      rcases List.mem_cons.mp hr with h1 | h1
      · obtain ⟨e, he2⟩ := he
        rw [h1, hres] at he2
        cases he2
      · obtain ⟨e, he3⟩ := ih (dictInsert acc ng.1 ng.2) r h1 he
        exact ⟨e, by simp only [parseRows, hres]; exact he3⟩

/-- For the fixed sample header and label lines, the parse of any row list
reduces to the row loop over the concrete (section, labels) pairs. -/
theorem parse_sample_header (rows : List String) :
    procNetDevParse (sampleHeaderLines ++ rows) = parseRows [] samplePairs rows := rfl

/-- C9: parse failure atomicity on short rows.  Under the sample header
(six flattened fields), if any data row splits on its colon but carries
fewer whitespace tokens than the flattened field list, `ProcNetDev.update`
raises (the flattened-position subscript falls off the token list), and —
because the freshly built `interfaces` dict is only published to `self.data`
after every row has parsed — the previously exposed mapping is left
completely unchanged, whatever it was. -/
theorem pnd_short_row_atomicity (st : PndState) (rows : List String)
    (row name dataStr : String) (hmem : row ∈ rows)
    (hsplit : splitColonOnce row = some (name, dataStr))
    (hshort : (pySplitWS dataStr.toList).length < 6) :
    ∃ e, procNetDevParse (sampleHeaderLines ++ rows) = .error e ∧
      pndUpdate st (sampleHeaderLines ++ rows) = (st, some e) := by
  have h6 : totalLabels samplePairs = 6 := rfl
  obtain ⟨e, he⟩ := parseRows_error samplePairs rows [] row hmem
    (parseRow_short samplePairs row name dataStr hsplit (h6.symm ▸ hshort)
      (by rw [h6]; omega))
  have hp : procNetDevParse (sampleHeaderLines ++ rows) = .error e :=
    (parse_sample_header rows).trans he
  exact ⟨e, hp, by simp [pndUpdate, hp]⟩

/-- Witness for C9: a concrete short row (`"eth0: 1 2"`, two tokens against
six flattened fields) after a populated state: the parse errors and the
state is unchanged. -/
theorem pnd_short_row_atomicity_witness :
    ∃ e, procNetDevParse (sampleHeaderLines ++ ["eth0: 1 2"]) = .error e ∧
      pndUpdate ⟨some sampleParsed⟩ (sampleHeaderLines ++ ["eth0: 1 2"]) =
        (⟨some sampleParsed⟩, some e) :=
  pnd_short_row_atomicity ⟨some sampleParsed⟩ ["eth0: 1 2"] "eth0: 1 2" "eth0" " 1 2"
    (by simp) (by rfl) (by decide)

end ProcWs
